import Mathlib

/-!
# PhysicsBox — verification of the specified rigid-body sandbox core

The repository ships only scene-authoring scripts; the simulator core
(`physobx.physobx`) is a native extension whose sources are not in the
repository.  Every definition below a `Modelled from the spec:` doc comment
is therefore a shallow embedding of the behaviour the specification
describes, faithful to the spec's words, over exact rational arithmetic
(square roots that the floating-point code would take are avoided by
comparing squared quantities; where a magnitude is needed the deviation is
recorded in the doc comment).
-/

attribute [local semireducible] Rat.add Rat.mul Rat.inv Rat.sub

set_option maxRecDepth 100000

namespace PhysicsBox

/-- Modelled from the spec: a caller-supplied floating-point scalar, which
may be non-finite (NaN or an infinity).  The engine validates finiteness at
insertion; finite values are modelled exactly as rationals. -/
inductive FScalar where
  | finite (q : ℚ)
  | nan
  | posInf
  | negInf
deriving DecidableEq

/-- Whether a caller-supplied scalar is finite. -/
def FScalar.isFinite : FScalar → Bool
  | .finite _ => true
  | _ => false

/-- The rational value of a finite caller-supplied scalar (0 otherwise). -/
def FScalar.val : FScalar → ℚ
  | .finite q => q
  | _ => 0

/-- A 3-vector of exact rational coordinates (world positions, velocities). -/
structure Vec3 where
  x : ℚ
  y : ℚ
  z : ℚ
deriving DecidableEq

/-- Componentwise vector addition. -/
def Vec3.add (a b : Vec3) : Vec3 := ⟨a.x + b.x, a.y + b.y, a.z + b.z⟩

/-- Componentwise vector subtraction. -/
def Vec3.sub (a b : Vec3) : Vec3 := ⟨a.x - b.x, a.y - b.y, a.z - b.z⟩

/-- Componentwise vector negation. -/
def Vec3.neg (a : Vec3) : Vec3 := ⟨-a.x, -a.y, -a.z⟩

/-- Scalar multiple of a vector. -/
def Vec3.smul (c : ℚ) (a : Vec3) : Vec3 := ⟨c * a.x, c * a.y, c * a.z⟩

instance : Zero Vec3 := ⟨⟨0, 0, 0⟩⟩

instance : Add Vec3 := ⟨Vec3.add⟩

instance : Sub Vec3 := ⟨Vec3.sub⟩

instance : Neg Vec3 := ⟨Vec3.neg⟩

instance : SMul ℚ Vec3 := ⟨Vec3.smul⟩

theorem Vec3.zero_smul (v : Vec3) : (0 : ℚ) • v = 0 := by
  show Vec3.smul 0 v = (⟨0, 0, 0⟩ : Vec3)
  rw [Vec3.smul]
  simp

theorem Vec3.add_zero (v : Vec3) : v + 0 = v := by
  show Vec3.add v ⟨0, 0, 0⟩ = v
  rw [Vec3.add]
  simp

/-- Dot product of two rational 3-vectors. -/
def dot (a b : Vec3) : ℚ := a.x * b.x + a.y * b.y + a.z * b.z

/-- Cross product of two rational 3-vectors. -/
def cross (a b : Vec3) : Vec3 :=
  ⟨a.y * b.z - a.z * b.y, a.z * b.x - a.x * b.z, a.x * b.y - a.y * b.x⟩

/-- A caller-supplied 3-vector whose components may be non-finite. -/
structure FVec3 where
  x : FScalar
  y : FScalar
  z : FScalar
deriving DecidableEq

/-- Whether all three components of a caller-supplied vector are finite. -/
def FVec3.isFinite (v : FVec3) : Bool :=
  v.x.isFinite && v.y.isFinite && v.z.isFinite

/-- The exact rational value of a finite caller-supplied vector. -/
def FVec3.val (v : FVec3) : Vec3 := ⟨v.x.val, v.y.val, v.z.val⟩

/-- Convenience: a finite caller-supplied scalar. -/
def fq (q : ℚ) : FScalar := .finite q

/-- Convenience: a finite caller-supplied vector. -/
def fv (x y z : ℚ) : FVec3 := ⟨.finite x, .finite y, .finite z⟩

/-- Modelled from the spec: the shape variant of a rigid body — an
axis-aligned cube given by its half-extent, or a sphere given by its
radius. -/
inductive Shape where
  | cube (halfExtent : ℚ)
  | sphere (radius : ℚ)
deriving DecidableEq

/-- Whether a shape is a cube. -/
def Shape.isCube : Shape → Bool
  | .cube _ => true
  | .sphere _ => false

/-- Whether a shape is a sphere. -/
def Shape.isSphere : Shape → Bool
  | .cube _ => false
  | .sphere _ => true

/-- Modelled from the spec: default restitution coefficient shared across
the scene. -/
def defaultRestitution : ℚ := 3/10

/-- Modelled from the spec: default friction coefficient shared across the
scene. -/
def defaultFriction : ℚ := 1/2

/-- A quaternion with exact rational components, as stored on a body
(bodies are inserted with the identity orientation).  Its length is
measured through `Quat.toReal` below. -/
structure Quat where
  w : ℚ
  x : ℚ
  y : ℚ
  z : ℚ
deriving DecidableEq

/-- The identity quaternion. -/
def Quat.one : Quat := ⟨1, 0, 0, 0⟩

/-- The stored rational quaternion viewed inside the real quaternion
algebra, where its norm lives. -/
noncomputable def Quat.toReal (q : Quat) : Quaternion ℝ :=
  ⟨(q.w : ℝ), (q.x : ℝ), (q.y : ℝ), (q.z : ℝ)⟩

/-- Modelled from the spec: a rigid body record — shape variant, world
position, orientation (unit quaternion, identity on insertion; the
translational step below keeps it fixed, and the orientation
integrate-and-renormalize update is modelled separately by
`orientationUpdate`), linear and angular velocity, mass (0 means
static/kinematic with infinite inverse mass), restitution and friction
coefficients, and a cosmetic render-only color. -/
structure Body where
  shape : Shape
  pos : Vec3
  orient : Quat
  linVel : Vec3
  angVel : Vec3
  mass : ℚ
  restitution : ℚ
  friction : ℚ
  color : Option Vec3
deriving DecidableEq

instance : Inhabited Body :=
  ⟨⟨.cube 1, 0, Quat.one, 0, 0, 0, defaultRestitution, defaultFriction, none⟩⟩

/-- Inverse mass: 0 for a static body (mass 0), 1/mass otherwise. -/
def Body.invMass (b : Body) : ℚ := if b.mass = 0 then 0 else b.mass⁻¹

/-- Modelled from the spec: body-space inverse inertia, derived from shape
and mass.  Cubes and spheres have isotropic inertia tensors, so a scalar
suffices: cube `(2/3)·m·h²`, sphere `(2/5)·m·r²`; a static body has inverse
inertia 0. -/
def Body.invInertia (b : Body) : ℚ :=
  if b.mass = 0 then 0 else
    match b.shape with
    | .cube h => ((2/3) * b.mass * h ^ 2)⁻¹
    | .sphere r => ((2/5) * b.mass * r ^ 2)⁻¹

/-- Modelled from the spec: the scene — an ordered, append-only collection
of rigid bodies (insertion order is the stable index), at most one ground
half-space (height and half-extent), and the scene-wide gravity constant. -/
structure Scene where
  bodies : List Body
  ground : Option (ℚ × ℚ)
  gravity : Vec3
deriving DecidableEq

/-- The empty scene: no bodies, no ground, gravity 9.8 units/s² downward. -/
def Scene.empty : Scene := ⟨[], none, ⟨0, -(49/5), 0⟩⟩

/-- Modelled from the spec: the error taxonomy surfaced to callers. -/
inductive Err where
  | invalidParameter
deriving DecidableEq

/-- Body lookup by dense index (the default body if out of range). -/
def bget (bs : List Body) (i : ℕ) : Body := (bs[i]?).getD default

/-- Modelled from the spec: `body_count()` — the number of bodies in the
scene, a read-only query. -/
def Scene.body_count (s : Scene) : ℕ := s.bodies.length

/-- Modelled from the spec: `shape_counts()` — the pair (cube count,
sphere count), a read-only query. -/
def Scene.shape_counts (s : Scene) : ℕ × ℕ :=
  (s.bodies.countP (fun b => b.shape.isCube),
   s.bodies.countP (fun b => b.shape.isSphere))

/-- Modelled from the spec: `add_ground(height, half_extent)` — registers
the single ground half-space; both scalars must be finite.  The ground is
not a body: the body list is untouched. -/
def Scene.add_ground (s : Scene) (height halfExtent : FScalar) :
    Except Err Scene :=
  if height.isFinite && halfExtent.isFinite then
    .ok { s with ground := some (height.val, halfExtent.val) }
  else
    .error .invalidParameter

/-- Validation shared by all body insertions: position (and velocity)
components finite, extent positive, mass finite and nonnegative. -/
def validBodyParams (pos : FVec3) (extent mass : FScalar) : Bool :=
  pos.isFinite && extent.isFinite && decide (0 < extent.val) &&
    mass.isFinite && decide (0 ≤ mass.val)

/-- A freshly inserted cube body: zero velocities, identity orientation. -/
def mkCube (pos : Vec3) (halfExtent mass : ℚ) (color : Option Vec3) : Body :=
  ⟨.cube halfExtent, pos, Quat.one, 0, 0, mass, defaultRestitution, defaultFriction,
    color⟩

/-- A freshly inserted sphere body: given linear velocity, identity
orientation. -/
def mkSphere (pos vel : Vec3) (radius mass : ℚ) (color : Option Vec3) :
    Body :=
  ⟨.sphere radius, pos, Quat.one, vel, 0, mass, defaultRestitution, defaultFriction,
    color⟩

/-- Modelled from the spec: `add_cube(pos, half_extent, mass)` — appends a
cube body after validating the parameters; an invalid parameter is rejected
at this call and the scene is not modified. -/
def Scene.add_cube (s : Scene) (pos : FVec3) (halfExtent mass : FScalar) :
    Except Err Scene :=
  if validBodyParams pos halfExtent mass then
    .ok { s with
          bodies := s.bodies ++ [mkCube pos.val halfExtent.val mass.val none] }
  else
    .error .invalidParameter

/-- Modelled from the spec: `add_cube_colored` — as `add_cube` with a
cosmetic color. -/
def Scene.add_cube_colored (s : Scene) (pos : FVec3)
    (halfExtent mass : FScalar) (color : Vec3) : Except Err Scene :=
  if validBodyParams pos halfExtent mass then
    .ok { s with
          bodies :=
            s.bodies ++ [mkCube pos.val halfExtent.val mass.val (some color)] }
  else
    .error .invalidParameter

/-- Modelled from the spec: `add_sphere_with_velocity(pos, vel, radius,
mass)` — appends a sphere body with the given initial linear velocity after
validating the parameters (velocity components must also be finite). -/
def Scene.add_sphere_with_velocity (s : Scene) (pos vel : FVec3)
    (radius mass : FScalar) : Except Err Scene :=
  if validBodyParams pos radius mass && vel.isFinite then
    .ok { s with
          bodies := s.bodies ++ [mkSphere pos.val vel.val radius.val mass.val none] }
  else
    .error .invalidParameter

/-- Modelled from the spec: `add_sphere_with_velocity_colored` — as
`add_sphere_with_velocity` with a cosmetic color. -/
def Scene.add_sphere_with_velocity_colored (s : Scene) (pos vel : FVec3)
    (radius mass : FScalar) (color : Vec3) : Except Err Scene :=
  if validBodyParams pos radius mass && vel.isFinite then
    .ok { s with
          bodies :=
            s.bodies ++ [mkSphere pos.val vel.val radius.val mass.val (some color)] }
  else
    .error .invalidParameter

/-- The cube lattice of an `add_cube_grid` call: `count.1 * count.2.1 *
count.2.2` independent cubes centred on `center` with the given spacing. -/
def gridCubes (center : Vec3) (spacing : ℚ) (count : ℕ × ℕ × ℕ)
    (halfExtent mass : ℚ) : List Body :=
  (List.range count.1).flatMap (fun i =>
    (List.range count.2.1).flatMap (fun j =>
      (List.range count.2.2).map (fun k =>
        mkCube
          (center +
            spacing •
              (⟨(i : ℚ) - ((count.1 : ℚ) - 1) / 2,
                (j : ℚ) - ((count.2.1 : ℚ) - 1) / 2,
                (k : ℚ) - ((count.2.2 : ℚ) - 1) / 2⟩ : Vec3))
          halfExtent mass none)))

/-- Modelled from the spec: `add_cube_grid(center, spacing, count[3],
half_extent, mass)` — bulk-inserts a regular lattice of `count[0] *
count[1] * count[2]` independent cubes after validating the shared
parameters once. -/
def Scene.add_cube_grid (s : Scene) (center : FVec3) (spacing : FScalar)
    (count : ℕ × ℕ × ℕ) (halfExtent mass : FScalar) : Except Err Scene :=
  if validBodyParams center halfExtent mass && spacing.isFinite then
    .ok { s with
          bodies :=
            s.bodies ++
              gridCubes center.val spacing.val count halfExtent.val mass.val }
  else
    .error .invalidParameter

/-- An axis-aligned bounding box given by its two corner points. -/
structure Aabb where
  lo : Vec3
  hi : Vec3

/-- The axis-aligned bounding box of a body's shape at its position. -/
def Body.aabb (b : Body) : Aabb :=
  match b.shape with
  | .cube h => ⟨b.pos - ⟨h, h, h⟩, b.pos + ⟨h, h, h⟩⟩
  | .sphere r => ⟨b.pos - ⟨r, r, r⟩, b.pos + ⟨r, r, r⟩⟩

/-- A bounding box grown by a margin `m` on every side. -/
def Aabb.expand (a : Aabb) (m : ℚ) : Aabb :=
  ⟨a.lo - ⟨m, m, m⟩, a.hi + ⟨m, m, m⟩⟩

/-- Whether two axis-aligned boxes overlap (inclusively) on all three
axes. -/
def Aabb.overlaps (a b : Aabb) : Bool :=
  decide (a.lo.x ≤ b.hi.x) && decide (b.lo.x ≤ a.hi.x) &&
    decide (a.lo.y ≤ b.hi.y) && decide (b.lo.y ≤ a.hi.y) &&
    decide (a.lo.z ≤ b.hi.z) && decide (b.lo.z ≤ a.hi.z)

/-- A body's speed, measured in the maximum norm (the rational stand-in for
the velocity magnitude used to size the fast-mover expansion). -/
def speedOf (v : Vec3) : ℚ := max |v.x| (max |v.y| |v.z|)

/-- Modelled from the spec: the broad-phase pair test — the two bodies'
bounding boxes, each expanded by the larger of the two bodies' velocities
times the timestep, overlap. -/
def broadTest (a b : Body) (dt : ℚ) : Bool :=
  let m := max (speedOf a.linVel) (speedOf b.linVel) * dt
  Aabb.overlaps (a.aabb.expand m) (b.aabb.expand m)

/-- All index pairs `(i, j)` with `i < j < n`, in lexicographic order (the
stable pair-enumeration order of the scene). -/
def allPairs (n : ℕ) : List (ℕ × ℕ) :=
  (List.range n).flatMap (fun j => (List.range j).map (fun i => (i, j)))

/-- Modelled from the spec: the broad-phase — emits every body pair whose
expanded bounding boxes overlap (a superset of the actually touching
pairs; false positives are possible, false negatives are not). -/
def broadPhase (bs : List Body) (dt : ℚ) : List (ℕ × ℕ) :=
  (allPairs bs.length).filter (fun p => broadTest (bget bs p.1) (bget bs p.2) dt)

/-- Modelled from the spec: the resting-contact slop — the small positive
penetration tolerance below which no Contact is produced. -/
def slop : ℚ := 1/100

/-- Modelled from the spec: a transient contact — the indices of the two
bodies (`j = none` means the ground half-space), a world contact point, a
separating normal pointing from body `j` toward body `i` (kept
unnormalized, since its exact length is irrational in general; the solver
folds the normalization into its algebra), and the penetration depth. -/
structure Contact where
  i : ℕ
  j : Option ℕ
  point : Vec3
  normal : Vec3
  pen : ℚ
deriving DecidableEq

/-- Clamp a scalar into an interval. -/
def clampQ (v lo hi : ℚ) : ℚ := min (max v lo) hi

/-- Narrow-phase dispatch for a candidate body pair `(a, b)` (orientations
are identity in this translational model, so cubes are axis-aligned).
Returns the contact point, the unnormalized normal pointing from `b` to
`a`, and the penetration depth, or `none` when the shapes do not overlap
by more than the slop.  For the two sphere cases the exact penetration
`r_sum − dist` is irrational; the model uses the first-order equivalent
`(r_sum² − dist²)/(2·r_sum)`, which vanishes exactly when the exact depth
does and agrees with it to first order in the overlap. -/
def narrowPair (a b : Body) : Option (Vec3 × Vec3 × ℚ) :=
  match a.shape, b.shape with
  | .sphere ra, .sphere rb =>
    let d := a.pos - b.pos
    let s := dot d d
    let rsum := ra + rb
    let pen := (rsum ^ 2 - s) / (2 * rsum)
    if s < rsum ^ 2 ∧ s ≠ 0 ∧ slop < pen then
      some (b.pos + (1/2 : ℚ) • d, d, pen)
    else none
  | .sphere r, .cube h =>
    let l := a.pos - b.pos
    let c : Vec3 := ⟨clampQ l.x (-h) h, clampQ l.y (-h) h, clampQ l.z (-h) h⟩
    let d := l - c
    let s := dot d d
    let pen := (r ^ 2 - s) / (2 * r)
    if s < r ^ 2 ∧ s ≠ 0 ∧ slop < pen then
      some (b.pos + c, d, pen)
    else none
  | .cube h, .sphere r =>
    let l := b.pos - a.pos
    let c : Vec3 := ⟨clampQ l.x (-h) h, clampQ l.y (-h) h, clampQ l.z (-h) h⟩
    let d := l - c
    let s := dot d d
    let pen := (r ^ 2 - s) / (2 * r)
    if s < r ^ 2 ∧ s ≠ 0 ∧ slop < pen then
      some (a.pos + c, -d, pen)
    else none
  | .cube hA, .cube hB =>
    let d := a.pos - b.pos
    let ox := (hA + hB) - |d.x|
    let oy := (hA + hB) - |d.y|
    let oz := (hA + hB) - |d.z|
    let pt := b.pos + (1/2 : ℚ) • d
    if slop < ox ∧ slop < oy ∧ slop < oz then
      if ox ≤ oy ∧ ox ≤ oz then
        some (pt, ⟨if 0 ≤ d.x then 1 else -1, 0, 0⟩, ox)
      else if oy ≤ oz then
        some (pt, ⟨0, if 0 ≤ d.y then 1 else -1, 0⟩, oy)
      else
        some (pt, ⟨0, 0, if 0 ≤ d.z then 1 else -1⟩, oz)
    else none

/-- Modelled from the spec: narrow-phase contact generation over a list of
candidate pairs — at most one representative contact per qualifying
pair. -/
def narrowPhase (bs : List Body) (pairs : List (ℕ × ℕ)) : List Contact :=
  pairs.filterMap (fun p =>
    (narrowPair (bget bs p.1) (bget bs p.2)).map
      (fun r => ⟨p.1, some p.2, r.1, r.2.1, r.2.2⟩))

/-- The lowest point of a body's shape (used against the ground
half-space). -/
def Body.minY (b : Body) : ℚ :=
  match b.shape with
  | .cube h => b.pos.y - h
  | .sphere r => b.pos.y - r

/-- Modelled from the spec: ground contacts — the ground is an infinite
half-space at `y = height`, paired with every body whose box dips below
`height + margin`; penetration is `height − body_min_y`, with unit upward
normal. -/
def groundContacts (bs : List Body) (ground : Option (ℚ × ℚ)) :
    List Contact :=
  match ground with
  | none => []
  | some g =>
    (List.range bs.length).filterMap (fun i =>
      let b := bget bs i
      let pen := g.1 - b.minY
      if slop < pen then
        some ⟨i, none, ⟨b.pos.x, g.1, b.pos.z⟩, ⟨0, 1, 0⟩, pen⟩
      else none)

/-- Modelled from the spec: combined restitution of a pair — the lower of
the two bodies' coefficients. -/
def combineRestitution (a b : ℚ) : ℚ := min a b

/-- Modelled from the spec: combined friction of a pair — the product of
the two bodies' coefficients. -/
def combineFriction (a b : ℚ) : ℚ := a * b

/-- Modelled from the spec: the Baumgarte positional-correction factor (a
small fraction of the accumulated penetration is fed back as a velocity
bias). -/
def baumgarte : ℚ := 1/5

/-- Modelled from the spec: the fixed number of solver iterations. -/
def solverIterations : ℕ := 8

/-- Modelled from the spec: the guard clamp on impulse magnitudes (numerical
blow-up is prevented by clamping rather than propagating). -/
def impulseClamp : ℚ := 10 ^ 6

/-- The velocity and angular-velocity deltas a contact applies to one of
its two bodies.  `sgn` is `+1` for body `i` (the normal points toward it)
and `-1` for body `j`.  Every delta is scaled by the body's own inverse
mass / inverse inertia, so a static body (both zero) receives exactly zero
effect.  `jn` and the friction impulse are shared by both bodies. -/
def applyContactDelta (b : Body) (sgn : ℚ) (impulse : Vec3) (r : Vec3) :
    Body :=
  { b with
    linVel := b.linVel + (sgn * b.invMass) • impulse,
    angVel := b.angVel + (sgn * b.invInertia) • cross r impulse }

/-- The shared impulse of one contact applied to its two bodies: body `i`
receives `+imp`, body `j` (when not the ground) receives `-imp`, each
scaled through its own inverse mass and inertia. -/
def applyImpulsePair (bs : List Body) (c : Contact) (imp : Vec3) :
    List Body :=
  let bs1 :=
    bs.set c.i (applyContactDelta (bget bs c.i) 1 imp (c.point - (bget bs c.i).pos))
  match c.j with
  | none => bs1
  | some j =>
    bs1.set j (applyContactDelta (bget bs j) (-1) imp (c.point - (bget bs j).pos))

/-- Modelled from the spec: the impulse of one contact, resolved
sequentially.  With unnormalized normal `n` (squared length `nn`), relative
approach velocity `vrel·n < 0` is removed scaled by the combined
restitution, a Baumgarte bias proportional to the penetration beyond the
slop is added (here scaled through `nn` rather than the irrational `‖n‖`),
the scalar is clamped to `[0, impulseClamp]`, and a tangential friction
impulse proportional to the combined friction and the normal impulse is
applied (a linearized Coulomb model; the exact cone clamp needs the
irrational tangential speed). -/
def solveContact (dt : ℚ) (bs : List Body) (c : Contact) : List Body :=
  let a := bget bs c.i
  let bOpt := c.j.map (bget bs)
  let n := c.normal
  let nn := dot n n
  let imSum := a.invMass + (bOpt.map Body.invMass).getD 0
  if nn = 0 ∨ imSum = 0 ∨ dt = 0 then bs
  else
    let vb := (bOpt.map Body.linVel).getD 0
    let vrel := a.linVel - vb
    let vn := dot vrel n
    let e := combineRestitution a.restitution
      ((bOpt.map Body.restitution).getD a.restitution)
    let bias := baumgarte * max (c.pen - slop) 0 / dt
    let jn := clampQ ((-(1 + e) * vn + bias) / (nn * imSum)) 0 impulseClamp
    if vn < 0 ∨ 0 < bias then
      let mu := combineFriction a.friction
        ((bOpt.map Body.friction).getD a.friction)
      let vt := vrel - (vn / nn) • n
      applyImpulsePair bs c (jn • n + (-(mu * jn)) • vt)
    else bs

/-- One Gauss–Seidel pass over the contact list, in discovery order. -/
def solvePass (dt : ℚ) (cs : List Contact) (bs : List Body) : List Body :=
  cs.foldl (solveContact dt) bs

/-- Modelled from the spec: the iterative sequential-impulse solver — a
fixed number of passes over the contacts in discovery order. -/
def solve (iters : ℕ) (dt : ℚ) (cs : List Contact) (bs : List Body) :
    List Body :=
  Nat.rec bs (fun _ acc => solvePass dt cs acc) iters

/-- Entry/exit parameter interval of a ray against one slab (the axis
interval `[lo, hi]`), or `none` when the ray is parallel and outside. -/
def slabInterval (o d lo hi : ℚ) : Option (ℚ × ℚ) :=
  if d = 0 then
    if lo ≤ o ∧ o ≤ hi then some (0, 1) else none
  else
    some (min ((lo - o) / d) ((hi - o) / d),
      max ((lo - o) / d) ((hi - o) / d))

/-- Swept test of a point `o` moving by `d` against a box: the earliest
crossing parameter in `[0, 1]`, or `none`. -/
def rayAabb (o d : Vec3) (box : Aabb) : Option ℚ :=
  match slabInterval o.x d.x box.lo.x box.hi.x,
      slabInterval o.y d.y box.lo.y box.hi.y,
      slabInterval o.z d.z box.lo.z box.hi.z with
  | some ix, some iy, some iz =>
    let tmin := max ix.1 (max iy.1 iz.1)
    let tmax := min ix.2 (min iy.2 iz.2)
    if tmin ≤ tmax ∧ 0 ≤ tmax ∧ tmin ≤ 1 then some (max tmin 0) else none
  | _, _, _ => none

/-- Modelled from the spec: the fast-mover heuristic — a sphere whose
displacement this sub-interval exceeds half its own radius (compared in
squared form). -/
def fastMover (b : Body) (dt : ℚ) : Bool :=
  match b.shape with
  | .sphere r => decide ((r / 2) ^ 2 < dot (dt • b.linVel) (dt • b.linVel))
  | .cube _ => false

/-- Modelled from the spec: the swept check of a fast sphere along its
motion segment against the other bodies (a conservative superset of the
broad-phase candidates): the sphere's center is swept against each other
body's box expanded by the sphere's radius; returns the earliest time of
impact and the body hit. -/
def sweepHit (bs : List Body) (i : ℕ) (dt : ℚ) : Option (ℚ × ℕ) :=
  let a := bget bs i
  let r := match a.shape with | .sphere r => r | .cube h => h
  let d := dt • a.linVel
  (List.range bs.length).foldl
    (fun acc j =>
      if j = i then acc
      else
        match rayAabb a.pos d ((bget bs j).aabb.expand r) with
        | none => acc
        | some t =>
          match acc with
          | none => some (t, j)
          | some prev => if t < prev.1 then some (t, j) else acc)
    none

/-- Modelled from the spec: position integration with CCD correction for
body `i` — `p += v·Δt` by semi-implicit Euler, except that a fast-moving
sphere whose sweep detects a crossing before the nominal end-of-substep
position is clamped to the time of impact (impact fraction `t` of the
displacement, `t = 1` when nothing is hit).  Velocities are untouched. -/
def integrateBody (bs : List Body) (dt : ℚ) (i : ℕ) : Body :=
  let b := bget bs i
  let d := dt • b.linVel
  let t : ℚ :=
    if fastMover b dt then
      match sweepHit bs i dt with
      | some hit => hit.1
      | none => 1
    else 1
  { b with pos := b.pos + t • d }

/-- The integration pass over all bodies (each swept against the
pre-integration positions). -/
def integrateAll (bs : List Body) (dt : ℚ) : List Body :=
  (List.range bs.length).map (integrateBody bs dt)

/-- The pairs whose CCD sweep fired this sub-interval, for which contact
generation and resolution are re-run after the clamp. -/
def ccdHitPairs (bs : List Body) (dt : ℚ) : List (ℕ × ℕ) :=
  (List.range bs.length).filterMap (fun i =>
    if fastMover (bget bs i) dt then
      (sweepHit bs i dt).map (fun hit => (i, hit.2))
    else none)

/-- Modelled from the spec: gravity applied to the linear velocity of every
dynamic body (a static body, mass 0, is immovable and receives none). -/
def applyGravity (g : Vec3) (dt : ℚ) (bs : List Body) : List Body :=
  bs.map (fun b =>
    if 0 < b.mass then { b with linVel := b.linVel + dt • g } else b)

/-- Modelled from the spec: one physics sub-interval — apply gravity to the
linear velocity of every dynamic body, run broad- and narrow-phase and the
iterative solver, integrate positions with CCD clamping, and re-run contact
generation/resolution for the contacts the CCD clamp introduced. -/
def Scene.substep (s : Scene) (dt : ℚ) : Scene :=
  let bs1 := applyGravity s.gravity dt s.bodies
  let pairs := broadPhase bs1 dt
  let contacts := narrowPhase bs1 pairs ++ groundContacts bs1 s.ground
  let bs2 := solve solverIterations dt contacts bs1
  let bs3 := integrateAll bs2 dt
  let bs4 := solvePass dt (narrowPhase bs3 (ccdHitPairs bs2 dt)) bs3
  { s with bodies := bs4 }

/-- Iterate `m` successive sub-intervals of length `d`. -/
def substepIter (d : ℚ) : ℕ → Scene → Scene
  | 0, s => s
  | m + 1, s => (substepIter d m s).substep d

/-- Modelled from the spec: `step(dt, substeps)` — split `dt` into
`substeps` equal sub-intervals and advance each in turn. -/
def Scene.step (s : Scene) (dt : ℚ) (substeps : ℕ) : Scene :=
  substepIter (dt / substeps) substeps s

/-- Modelled from the spec: the camera — eye and look-at target positions,
owned by the simulator; it has no physical effect on the scene. -/
structure Camera where
  eye : Vec3
  target : Vec3
deriving DecidableEq

/-- Modelled from the spec: the simulator — owns the scene, the frame
dimensions and the camera. -/
structure Simulator where
  scene : Scene
  width : ℕ
  height : ℕ
  camera : Camera

/-- Modelled from the spec: `Simulator(scene, width, height)` with a
default camera. -/
def Simulator.new (s : Scene) (width height : ℕ) : Simulator :=
  ⟨s, width, height, ⟨⟨0, 0, 10⟩, 0⟩⟩

/-- Modelled from the spec: `set_camera(eye, target)` — validated (finite
vectors, eye distinct from target), updates only the camera. -/
def Simulator.set_camera (sim : Simulator) (eye target : FVec3) :
    Except Err Simulator :=
  if eye.isFinite && target.isFinite && decide (eye.val ≠ target.val) then
    .ok { sim with camera := ⟨eye.val, target.val⟩ }
  else
    .error .invalidParameter

/-- Modelled from the spec: `Simulator.step(dt, substeps)` — advances the
owned scene. -/
def Simulator.step (sim : Simulator) (dt : ℚ) (substeps : ℕ) : Simulator :=
  { sim with scene := sim.scene.step dt substeps }

/-- Modelled from the spec: `get_positions()` — the per-body position
snapshot as a 2-D numeric array, one row of three columns `[x, y, z]` per
body in insertion-index order; a pure query with no rendering side
effect. -/
def Simulator.get_positions (sim : Simulator) : List (List ℚ) :=
  sim.scene.bodies.map (fun b => [b.pos.x, b.pos.y, b.pos.z])

/-- Modelled from the spec: `dimensions()` — the frame `(width, height)`. -/
def Simulator.dimensions (sim : Simulator) : ℕ × ℕ := (sim.width, sim.height)

/-- Modelled from the spec: the frame handed to the external PNG encoder —
a function of the frame dimensions, the camera and the current body states
only (the rasterized pixel contents are determined by these inputs; their
pixel-level detail is outside the claims checked here). -/
structure Frame where
  dims : ℕ × ℕ
  camera : Camera
  snapshot : List (List ℚ)

/-- Modelled from the spec: the render call underlying `save_png` — it
reads the current body state and produces a frame; it does not write any
physics state. -/
def Simulator.render (sim : Simulator) : Frame :=
  ⟨sim.dimensions, sim.camera, sim.get_positions⟩

/-- A scripted call against the simulator: a physics step or a
`save_png`. -/
inductive Cmd where
  | step (dt : ℚ) (substeps : ℕ)
  | savePng
deriving DecidableEq

/-- Whether a scripted call is a physics step. -/
def Cmd.isStep : Cmd → Bool
  | .step _ _ => true
  | .savePng => false

/-- Run a script of calls: each `step` advances the simulator, each
`save_png` renders the current state into a frame collected in order. -/
def runCmds : List Cmd → Simulator → Simulator × List Frame
  | [], sim => (sim, [])
  | .step dt n :: rest, sim => runCmds rest (sim.step dt n)
  | .savePng :: rest, sim =>
    let out := runCmds rest sim
    (out.1, sim.render :: out.2)

/-- Modelled from the spec: the orientation update of one sub-interval for
one body — `q += 0.5·ω·q·Δt` with `ω` the angular velocity as a pure
quaternion, followed by re-normalization. -/
noncomputable def orientationUpdate (q ω : Quaternion ℝ) (dt : ℝ) :
    Quaternion ℝ :=
  let q' := q + (dt / 2) • (ω * q)
  ‖q'‖⁻¹ • q'

/-- The value of a successful call, or a fallback after a failure (the
failed call leaves the caller holding the unmodified scene). -/
def okD {α : Type} (r : Except Err α) (d : α) : α :=
  match r with
  | .ok a => a
  | .error _ => d

instance {e a : Type} [DecidableEq e] [DecidableEq a] :
    DecidableEq (Except e a) := fun x y =>
  match x, y with
  | .ok u, .ok v =>
    if h : u = v then .isTrue (by rw [h]) else .isFalse (by simp [h])
  | .error u, .error v =>
    if h : u = v then .isTrue (by rw [h]) else .isFalse (by simp [h])
  | .ok _, .error _ => .isFalse (by simp)
  | .error _, .ok _ => .isFalse (by simp)

/-- A body-insertion call together with its caller-supplied parameters. -/
inductive InsOp where
  | cube (pos : FVec3) (halfExtent mass : FScalar)
  | cubeColored (pos : FVec3) (halfExtent mass : FScalar) (color : Vec3)
  | sphere (pos vel : FVec3) (radius mass : FScalar)
  | sphereColored (pos vel : FVec3) (radius mass : FScalar) (color : Vec3)
  | grid (center : FVec3) (spacing : FScalar) (count : ℕ × ℕ × ℕ)
      (halfExtent mass : FScalar)
deriving DecidableEq

/-- Dispatch an insertion call to the scene operation it names. -/
def applyIns (s : Scene) : InsOp → Except Err Scene
  | .cube p h m => s.add_cube p h m
  | .cubeColored p h m c => s.add_cube_colored p h m c
  | .sphere p v r m => s.add_sphere_with_velocity p v r m
  | .sphereColored p v r m c => s.add_sphere_with_velocity_colored p v r m c
  | .grid c sp n h m => s.add_cube_grid c sp n h m

/-- Run a sequence of insertion calls, stopping at the first failure. -/
def applyInsSeq (s : Scene) : List InsOp → Except Err Scene
  | [] => .ok s
  | op :: rest => (applyIns s op).bind (fun s' => applyInsSeq s' rest)

/-- The number of cubes one successful insertion call contributes (a grid
call with counts `[n0, n1, n2]` contributes `n0·n1·n2`). -/
def InsOp.cubes : InsOp → ℕ
  | .cube _ _ _ => 1
  | .cubeColored _ _ _ _ => 1
  | .grid _ _ n _ _ => n.1 * (n.2.1 * n.2.2)
  | _ => 0

/-- The number of spheres one successful insertion call contributes. -/
def InsOp.spheres : InsOp → ℕ
  | .sphere _ _ _ _ => 1
  | .sphereColored _ _ _ _ _ => 1
  | _ => 0

/-- Total cubes contributed by a sequence of insertion calls. -/
def cubesTotal (ops : List InsOp) : ℕ := (ops.map InsOp.cubes).sum

/-- Total spheres contributed by a sequence of insertion calls. -/
def spheresTotal (ops : List InsOp) : ℕ := (ops.map InsOp.spheres).sum

theorem gridCubes_length (c : Vec3) (sp : ℚ) (n : ℕ × ℕ × ℕ) (h m : ℚ) :
    (gridCubes c sp n h m).length = n.1 * (n.2.1 * n.2.2) := by
  simp [gridCubes, List.length_flatMap, Function.comp_def, List.map_const',
    List.sum_replicate, smul_eq_mul, mul_comm]

theorem gridCubes_all_cubes (c : Vec3) (sp : ℚ) (n : ℕ × ℕ × ℕ) (h m : ℚ) :
    ∀ b ∈ gridCubes c sp n h m, b.shape.isCube = true := by
  intro b hb
  simp only [gridCubes, List.mem_flatMap, List.mem_map] at hb
  obtain ⟨i, -, j, -, k, -, rfl⟩ := hb
  rfl

theorem countP_gridCubes_isCube (c : Vec3) (sp : ℚ) (n : ℕ × ℕ × ℕ)
    (h m : ℚ) :
    (gridCubes c sp n h m).countP (fun b => b.shape.isCube) =
      n.1 * (n.2.1 * n.2.2) := by
  rw [List.countP_eq_length.mpr (gridCubes_all_cubes c sp n h m)]
  exact gridCubes_length c sp n h m

theorem countP_gridCubes_isSphere (c : Vec3) (sp : ℚ) (n : ℕ × ℕ × ℕ)
    (h m : ℚ) :
    (gridCubes c sp n h m).countP (fun b => b.shape.isSphere) = 0 := by
  rw [List.countP_eq_zero]
  intro b hb
  have := gridCubes_all_cubes c sp n h m b hb
  cases hs : b.shape with
  | cube he => simp [Shape.isSphere]
  | sphere r => rw [hs] at this; simp [Shape.isCube] at this

/-- One successful insertion appends bodies only, leaving ground and
gravity alone, and adds exactly its contributed counts. -/
theorem applyIns_shape_counts (s s' : Scene) (op : InsOp)
    (hok : applyIns s op = .ok s') :
    s'.shape_counts =
      (s.shape_counts.1 + op.cubes, s.shape_counts.2 + op.spheres) := by
  cases op with
  | cube p h m =>
    rw [applyIns, Scene.add_cube] at hok
    split at hok
    · cases hok
      simp [Scene.shape_counts, List.countP_append, mkCube, InsOp.cubes,
        InsOp.spheres, Shape.isCube, Shape.isSphere, List.countP_cons]
    · cases hok
  | cubeColored p h m c =>
    rw [applyIns, Scene.add_cube_colored] at hok
    split at hok
    · cases hok
      simp [Scene.shape_counts, List.countP_append, mkCube, InsOp.cubes,
        InsOp.spheres, Shape.isCube, Shape.isSphere, List.countP_cons]
    · cases hok
  | sphere p v r m =>
    rw [applyIns, Scene.add_sphere_with_velocity] at hok
    split at hok
    · cases hok
      simp [Scene.shape_counts, List.countP_append, mkSphere, InsOp.cubes,
        InsOp.spheres, Shape.isCube, Shape.isSphere, List.countP_cons]
    · cases hok
  | sphereColored p v r m c =>
    rw [applyIns, Scene.add_sphere_with_velocity_colored] at hok
    split at hok
    · cases hok
      simp [Scene.shape_counts, List.countP_append, mkSphere, InsOp.cubes,
        InsOp.spheres, Shape.isCube, Shape.isSphere, List.countP_cons]
    · cases hok
  | grid c sp n h m =>
    rw [applyIns, Scene.add_cube_grid] at hok
    split at hok
    · cases hok
      simp [Scene.shape_counts, List.countP_append, InsOp.cubes,
        InsOp.spheres, countP_gridCubes_isCube, countP_gridCubes_isSphere]
    · cases hok

/-- Shape counts accumulate across any successful insertion sequence. -/
theorem applyInsSeq_shape_counts (ops : List InsOp) :
    ∀ s s' : Scene, applyInsSeq s ops = .ok s' →
      s'.shape_counts =
        (s.shape_counts.1 + cubesTotal ops,
         s.shape_counts.2 + spheresTotal ops) := by
  induction ops with
  | nil =>
    intro s s' hok
    cases hok
    simp [cubesTotal, spheresTotal]
  | cons op rest ih =>
    intro s s' hok
    rw [applyInsSeq] at hok
    cases hmid : applyIns s op with
    | error e => rw [hmid] at hok; cases hok
    | ok smid =>
      rw [hmid] at hok
      have h1 := applyIns_shape_counts s smid op hmid
      have h2 := ih smid s' hok
      rw [h2, h1]
      simp [cubesTotal, spheresTotal]
      constructor <;> ring

/-- Every scene's body count is its cube count plus its sphere count. -/
theorem body_count_eq_shape_counts (s : Scene) :
    s.body_count = s.shape_counts.1 + s.shape_counts.2 := by
  rw [Scene.body_count, Scene.shape_counts,
    List.length_eq_countP_add_countP (fun b => b.shape.isCube)]
  congr 1
  apply List.countP_congr
  intro b _
  cases b.shape <;> simp [Shape.isCube, Shape.isSphere]

/-- C2.  For every sequence of successful insertions containing `C` cubes
and `S` spheres in total — via any mix of `add_cube`, `add_cube_colored`,
`add_sphere_with_velocity`, `add_sphere_with_velocity_colored` and
`add_cube_grid` calls, a grid call with counts `[n0, n1, n2]` contributing
`n0·n1·n2` cubes — `shape_counts()` returns exactly the pair `(C, S)`; it
is a pure read-only query of the resulting scene. -/
theorem shape_counts_exact (ops : List InsOp) (s' : Scene)
    (hok : applyInsSeq Scene.empty ops = .ok s') :
    s'.shape_counts = (cubesTotal ops, spheresTotal ops) := by
  have := applyInsSeq_shape_counts ops Scene.empty s' hok
  simpa [Scene.empty, Scene.shape_counts] using this

/-- The concrete insertion mix of the C2 witness: one cube, a 2×3×2 grid,
one colored sphere. -/
def c2ops : List InsOp :=
  [.cube (fv 0 1 0) (fq (1/2)) (fq 1),
   .grid (fv 0 8 0) (fq 2) (2, 3, 2) (fq (1/2)) (fq 1),
   .sphereColored (fv 0 20 0) (fv 1 0 0) (fq 1) (fq 8) ⟨1, 0, 0⟩]

/-- The scene the C2 witness mix builds. -/
def c2scene : Scene := okD (applyInsSeq Scene.empty c2ops) Scene.empty

/-- Witness for C2: the concrete mix yields exactly (13, 1). -/
theorem shape_counts_exact_witness :
    c2scene.shape_counts = (cubesTotal c2ops, spheresTotal c2ops) :=
  shape_counts_exact c2ops c2scene (by decide)

/-- C8.  The ground registered by `add_ground` is not counted as a body:
after `add_ground` followed by any successful insertion sequence,
`body_count()` is exactly the number of inserted bodies, and
`shape_counts()` counts only the inserted cubes and spheres. -/
theorem ground_not_counted (h he : FScalar) (g s' : Scene)
    (ops : List InsOp) (hg : Scene.empty.add_ground h he = .ok g)
    (hok : applyInsSeq g ops = .ok s') :
    s'.body_count = cubesTotal ops + spheresTotal ops ∧
      s'.shape_counts = (cubesTotal ops, spheresTotal ops) := by
  have hgb : g.shape_counts = (0, 0) := by
    rw [Scene.add_ground] at hg
    split at hg
    · cases hg; rfl
    · cases hg
  have hc := applyInsSeq_shape_counts ops g s' hok
  rw [hgb] at hc
  simp only [Nat.zero_add] at hc
  exact ⟨by rw [body_count_eq_shape_counts, hc], hc⟩

/-- The ground-then-bodies construction of the C8 witness. -/
def c8ground : Scene := okD (Scene.empty.add_ground (fq 0) (fq 50)) Scene.empty

/-- The insertion mix of the C8 witness: two cubes and a sphere. -/
def c8ops : List InsOp :=
  [.cube (fv 0 1 0) (fq (1/2)) (fq 1),
   .cube (fv 0 3 0) (fq (1/2)) (fq 1),
   .sphere (fv 0 9 0) (fv 0 0 0) (fq 1) (fq 2)]

/-- The scene the C8 witness builds. -/
def c8scene : Scene := okD (applyInsSeq c8ground c8ops) Scene.empty

/-- Witness for C8: ground plus two cubes and a sphere gives body count
2 + 1, the ground uncounted. -/
theorem ground_not_counted_witness :
    c8scene.body_count = cubesTotal c8ops + spheresTotal c8ops :=
  (ground_not_counted (fq 0) (fq 50) c8ground c8scene c8ops (by decide)
    (by decide)).1

/-- C10.  `get_positions()` is a 2-D numeric array: one row per body in
insertion-index order, each row having exactly three columns, and column 1
of row `i` is the vertical (y) coordinate of body `i` — so column slicing
such as `positions[:, 1]` reads the heights. -/
theorem get_positions_layout (sim : Simulator) :
    (sim.get_positions).length = sim.scene.body_count ∧
      (∀ row ∈ sim.get_positions, row.length = 3) ∧
      (∀ i, i < sim.scene.body_count →
        ((sim.get_positions).getD i []).getD 1 0 =
          (bget sim.scene.bodies i).pos.y) := by
  refine ⟨by simp [Simulator.get_positions, Scene.body_count], ?_, ?_⟩
  · intro row hrow
    simp only [Simulator.get_positions, List.mem_map] at hrow
    obtain ⟨b, -, rfl⟩ := hrow
    rfl
  · intro i hi
    rw [Scene.body_count] at hi
    simp [Simulator.get_positions, List.getD_eq_getElem?_getD,
      List.getElem?_map, bget, List.getElem?_eq_getElem hi]

/-- The two-body simulator of the C10 witness. -/
def c10sim : Simulator :=
  Simulator.new
    (okD (applyInsSeq Scene.empty
      [.cube (fv 5 7 9) (fq 1) (fq 1),
       .sphere (fv 1 2 3) (fv 0 0 0) (fq 1) (fq 1)]) Scene.empty)
    640 480

/-- Witness for C10: in the two-body simulator, row 0 column 1 of
get_positions is the first body's height. -/
theorem get_positions_layout_witness :
    ((c10sim.get_positions).getD 0 []).getD 1 0 =
      (bget c10sim.scene.bodies 0).pos.y :=
  (get_positions_layout c10sim).2.2 0 (by decide)

/-- Float semantics of `x < 0` for a caller-supplied scalar: true for
negative infinity and for a finite negative value (false on NaN). -/
def FScalar.isNeg (s : FScalar) : Prop :=
  s = .negInf ∨ (s.isFinite = true ∧ s.val < 0)

/-- Float semantics of `x ≤ 0` for a caller-supplied scalar. -/
def FScalar.isNonpos (s : FScalar) : Prop :=
  s = .negInf ∨ (s.isFinite = true ∧ s.val ≤ 0)

/-- The failure conditions claimed for each insertion call: some
position/velocity component non-finite, half-extent or radius ≤ 0, or
mass < 0. -/
def InsOp.invalidInput : InsOp → Prop
  | .cube p h m => p.isFinite = false ∨ h.isNonpos ∨ m.isNeg
  | .cubeColored p h m _ => p.isFinite = false ∨ h.isNonpos ∨ m.isNeg
  | .sphere p v r m =>
    p.isFinite = false ∨ v.isFinite = false ∨ r.isNonpos ∨ m.isNeg
  | .sphereColored p v r m _ =>
    p.isFinite = false ∨ v.isFinite = false ∨ r.isNonpos ∨ m.isNeg
  | .grid c _ _ h m => c.isFinite = false ∨ h.isNonpos ∨ m.isNeg

theorem validBodyParams_false_pos (p : FVec3) (e m : FScalar)
    (hp : p.isFinite = false) : validBodyParams p e m = false := by
  simp [validBodyParams, hp]

theorem validBodyParams_false_extent (p : FVec3) (e m : FScalar)
    (he : e.isNonpos) : validBodyParams p e m = false := by
  rcases he with he | ⟨hf, hv⟩
  · subst he; simp [validBodyParams, FScalar.isFinite]
  · simp [validBodyParams, not_lt.mpr hv]

theorem validBodyParams_false_mass (p : FVec3) (e m : FScalar)
    (hm : m.isNeg) : validBodyParams p e m = false := by
  rcases hm with hm | ⟨hf, hv⟩
  · subst hm; simp [validBodyParams, FScalar.isFinite]
  · simp [validBodyParams, not_le.mpr hv]

/-- C3.  Every body-insertion call (`add_cube`, `add_cube_colored`,
`add_sphere_with_velocity`, `add_sphere_with_velocity_colored`,
`add_cube_grid`) fails with `InvalidParameter` whenever mass < 0, the
half-extent or radius is ≤ 0, or any position/velocity component is
non-finite; on such a failure no new scene is produced, so the caller's
scene — `body_count` and every existing body — is unchanged. -/
theorem insertion_validation (s : Scene) (op : InsOp)
    (hbad : op.invalidInput) :
    applyIns s op = .error .invalidParameter ∧ okD (applyIns s op) s = s := by
  have key : applyIns s op = .error .invalidParameter := by
    cases op with
    | cube p h m =>
      rcases hbad with hp | he | hm
      · rw [applyIns, Scene.add_cube, validBodyParams_false_pos p h m hp]
        rfl
      · rw [applyIns, Scene.add_cube, validBodyParams_false_extent p h m he]
        rfl
      · rw [applyIns, Scene.add_cube, validBodyParams_false_mass p h m hm]
        rfl
    | cubeColored p h m c =>
      rcases hbad with hp | he | hm
      · rw [applyIns, Scene.add_cube_colored,
          validBodyParams_false_pos p h m hp]
        rfl
      · rw [applyIns, Scene.add_cube_colored,
          validBodyParams_false_extent p h m he]
        rfl
      · rw [applyIns, Scene.add_cube_colored,
          validBodyParams_false_mass p h m hm]
        rfl
    | sphere p v r m =>
      rcases hbad with hp | hv | he | hm
      · rw [applyIns, Scene.add_sphere_with_velocity,
          validBodyParams_false_pos p r m hp]
        rfl
      · rw [applyIns, Scene.add_sphere_with_velocity, hv]
        simp
      · rw [applyIns, Scene.add_sphere_with_velocity,
          validBodyParams_false_extent p r m he]
        rfl
      · rw [applyIns, Scene.add_sphere_with_velocity,
          validBodyParams_false_mass p r m hm]
        rfl
    | sphereColored p v r m c =>
      rcases hbad with hp | hv | he | hm
      · rw [applyIns, Scene.add_sphere_with_velocity_colored,
          validBodyParams_false_pos p r m hp]
        rfl
      · rw [applyIns, Scene.add_sphere_with_velocity_colored, hv]
        simp
      · rw [applyIns, Scene.add_sphere_with_velocity_colored,
          validBodyParams_false_extent p r m he]
        rfl
      · rw [applyIns, Scene.add_sphere_with_velocity_colored,
          validBodyParams_false_mass p r m hm]
        rfl
    | grid c sp n h m =>
      rcases hbad with hp | he | hm
      · rw [applyIns, Scene.add_cube_grid, validBodyParams_false_pos c h m hp]
        rfl
      · rw [applyIns, Scene.add_cube_grid,
          validBodyParams_false_extent c h m he]
        rfl
      · rw [applyIns, Scene.add_cube_grid,
          validBodyParams_false_mass c h m hm]
        rfl
  exact ⟨key, by rw [key]; rfl⟩

/-- Witness for C3: a cube with zero half-extent, a sphere with negative
mass, a grid with a NaN center component — each rejected, each leaving the
empty scene as it was. -/
theorem insertion_validation_witness :
    (applyIns Scene.empty (.cube (fv 0 1 0) (fq 0) (fq 1)) =
        .error .invalidParameter ∧
      okD (applyIns Scene.empty (.cube (fv 0 1 0) (fq 0) (fq 1))) Scene.empty =
        Scene.empty) ∧
    (applyIns Scene.empty (.sphere (fv 0 1 0) (fv 3 0 0) (fq 1) (fq (-2))) =
        .error .invalidParameter ∧
      okD (applyIns Scene.empty
          (.sphere (fv 0 1 0) (fv 3 0 0) (fq 1) (fq (-2)))) Scene.empty =
        Scene.empty) ∧
    (applyIns Scene.empty
        (.grid ⟨.nan, .finite 0, .finite 0⟩ (fq 2) (2, 2, 2) (fq 1) (fq 1)) =
        .error .invalidParameter ∧
      okD (applyIns Scene.empty
          (.grid ⟨.nan, .finite 0, .finite 0⟩ (fq 2) (2, 2, 2) (fq 1) (fq 1)))
        Scene.empty = Scene.empty) :=
  ⟨insertion_validation Scene.empty (.cube (fv 0 1 0) (fq 0) (fq 1))
      (Or.inr (Or.inl (Or.inr ⟨rfl, le_refl 0⟩))),
   insertion_validation Scene.empty
      (.sphere (fv 0 1 0) (fv 3 0 0) (fq 1) (fq (-2)))
      (Or.inr (Or.inr (Or.inr (Or.inr ⟨rfl, by norm_num [fq, FScalar.val]⟩)))),
   insertion_validation Scene.empty
      (.grid ⟨.nan, .finite 0, .finite 0⟩ (fq 2) (2, 2, 2) (fq 1) (fq 1))
      (Or.inl rfl)⟩

theorem Aabb.overlaps_symm (a b : Aabb) : a.overlaps b = b.overlaps a := by
  rw [Bool.eq_iff_iff]
  simp only [Aabb.overlaps, Bool.and_eq_true, decide_eq_true_eq]
  tauto

theorem broadTest_symm (a b : Body) (dt : ℚ) :
    broadTest a b dt = broadTest b a dt := by
  rw [broadTest, broadTest, max_comm, Aabb.overlaps_symm]

theorem mem_allPairs (i j n : ℕ) : (i, j) ∈ allPairs n ↔ i < j ∧ j < n := by
  simp only [allPairs, List.mem_flatMap, List.mem_map, List.mem_range,
    Prod.mk.injEq]
  constructor
  · rintro ⟨a, ha, b, hb, rfl, rfl⟩
    exact ⟨hb, ha⟩
  · rintro ⟨hij, hjn⟩
    exact ⟨j, hjn, i, hij, rfl, rfl⟩

/-- C6.  The broad-phase never misses a pair: any two distinct bodies whose
bounding boxes — expanded by the larger of the two bodies' velocities times
the timestep — overlap are emitted as a candidate pair (as the ordered pair
of their indices); false positives are permitted, false negatives are
not. -/
theorem broadPhase_complete (bs : List Body) (dt : ℚ) (i j : ℕ)
    (hne : i ≠ j) (hi : i < bs.length) (hj : j < bs.length)
    (hov : broadTest (bget bs i) (bget bs j) dt = true) :
    (min i j, max i j) ∈ broadPhase bs dt := by
  rcases lt_or_gt_of_ne hne with hlt | hgt
  · rw [min_eq_left hlt.le, max_eq_right hlt.le, broadPhase, List.mem_filter]
    exact ⟨(mem_allPairs i j bs.length).mpr ⟨hlt, hj⟩, hov⟩
  · rw [min_eq_right hgt.le, max_eq_left hgt.le, broadPhase, List.mem_filter]
    exact ⟨(mem_allPairs j i bs.length).mpr ⟨hgt, hi⟩,
      (broadTest_symm (bget bs j) (bget bs i) dt).trans hov⟩

/-- The two-body list of the C6 witness: a slow cube and a fast sphere
whose boxes overlap only after the velocity expansion. -/
def c6bodies : List Body :=
  [mkCube ⟨0, 0, 0⟩ (1/2) 1 none,
   mkSphere ⟨4, 0, 0⟩ ⟨-120, 0, 0⟩ (1/2) 1 none]

/-- Witness for C6: the fast-mover pair (0, 1) is emitted. -/
theorem broadPhase_complete_witness :
    (min 0 1, max 0 1) ∈ broadPhase c6bodies (1/60) :=
  broadPhase_complete c6bodies (1/60) 0 1 (by decide) (by decide) (by decide)
    (by decide)

/-- The per-step observable trace of a run: the `get_positions` snapshot
after each `step(dt, substeps)` of the script. -/
def positionsTrace (sim : Simulator) : List (ℚ × ℕ) → List (List (List ℚ))
  | [] => []
  | d :: rest => ((sim.step d.1 d.2).get_positions) ::
      positionsTrace (sim.step d.1 d.2) rest

/-- C4.  Determinism: running the identical construction and step sequence
twice single-threaded yields identical body positions at every step — the
modelled `step` is a pure function of the simulator state, so equal initial
simulators produce equal position snapshots after every step of the
script. -/
theorem run_deterministic (sim1 sim2 : Simulator) (h : sim1 = sim2)
    (script : List (ℚ × ℕ)) :
    positionsTrace sim1 script = positionsTrace sim2 script := by
  rw [h]

/-- Witness for C4: two identical runs of a one-step script over the
two-body simulator agree. -/
theorem run_deterministic_witness :
    positionsTrace c10sim [(1/60, 1), (1/60, 2)] =
      positionsTrace c10sim [(1/60, 1), (1/60, 2)] :=
  run_deterministic c10sim c10sim rfl [(1/60, 1), (1/60, 2)]

/-- C9.  `save_png` leaves all physics state unchanged: rendering reads the
body state and produces a frame without writing back, so a command script
with the `save_png` calls removed reaches exactly the same simulator (hence
the same body trajectories), and a script of a single `save_png` returns
the simulator untouched. -/
theorem save_png_pure :
    (∀ (sim : Simulator) (cmds : List Cmd),
      (runCmds cmds sim).1 = (runCmds (cmds.filter Cmd.isStep) sim).1) ∧
    (∀ sim : Simulator, (runCmds [Cmd.savePng] sim).1 = sim) := by
  constructor
  · intro sim cmds
    induction cmds generalizing sim with
    | nil => rfl
    | cons c rest ih =>
      cases c with
      | step dt n =>
        rw [List.filter_cons_of_pos (by rfl)]
        exact ih (sim.step dt n)
      | savePng =>
        rw [List.filter_cons_of_neg (by simp [Cmd.isStep])]
        exact ih sim
  · intro sim
    rfl

theorem Quat_one_toReal : Quat.one.toReal = 1 := by
  apply Quaternion.ext <;> simp [Quat.one, Quat.toReal]

theorem norm_Quat_one : ‖Quat.one.toReal‖ = 1 := by
  rw [Quat_one_toReal, norm_one]

/-- Every body a single successful insertion appends carries the identity
orientation, and existing bodies are untouched. -/
theorem applyIns_orient (s s' : Scene) (op : InsOp)
    (hok : applyIns s op = .ok s')
    (hs : ∀ b ∈ s.bodies, b.orient = Quat.one) :
    ∀ b ∈ s'.bodies, b.orient = Quat.one := by
  have step : ∀ (bs : List Body), s'.bodies = s.bodies ++ bs →
      (∀ b ∈ bs, b.orient = Quat.one) → ∀ b ∈ s'.bodies, b.orient = Quat.one := by
    intro bs hbs hnew b hb
    rw [hbs, List.mem_append] at hb
    rcases hb with hb | hb
    · exact hs b hb
    · exact hnew b hb
  cases op with
  | cube p h m =>
    rw [applyIns, Scene.add_cube] at hok
    split at hok
    · cases hok
      exact step _ rfl (fun b hb => by
        rw [List.mem_singleton] at hb
        rw [hb]
        rfl)
    · cases hok
  | cubeColored p h m c =>
    rw [applyIns, Scene.add_cube_colored] at hok
    split at hok
    · cases hok
      exact step _ rfl (fun b hb => by
        rw [List.mem_singleton] at hb
        rw [hb]
        rfl)
    · cases hok
  | sphere p v r m =>
    rw [applyIns, Scene.add_sphere_with_velocity] at hok
    split at hok
    · cases hok
      exact step _ rfl (fun b hb => by
        rw [List.mem_singleton] at hb
        rw [hb]
        rfl)
    · cases hok
  | sphereColored p v r m c =>
    rw [applyIns, Scene.add_sphere_with_velocity_colored] at hok
    split at hok
    · cases hok
      exact step _ rfl (fun b hb => by
        rw [List.mem_singleton] at hb
        rw [hb]
        rfl)
    · cases hok
  | grid c sp n h m =>
    rw [applyIns, Scene.add_cube_grid] at hok
    split at hok
    · cases hok
      refine step _ rfl ?_
      intro b hb
      simp only [gridCubes, List.mem_flatMap, List.mem_map] at hb
      obtain ⟨i, -, j, -, k, -, rfl⟩ := hb
      rfl
    · cases hok

/-- Every body of a scene built from the empty scene by any successful
insertion sequence carries the identity orientation. -/
theorem applyInsSeq_orient (ops : List InsOp) :
    ∀ s s' : Scene, applyInsSeq s ops = .ok s' →
      (∀ b ∈ s.bodies, b.orient = Quat.one) →
      ∀ b ∈ s'.bodies, b.orient = Quat.one := by
  induction ops with
  | nil => intro s s' hok hs; cases hok; exact hs
  | cons op rest ih =>
    intro s s' hok hs
    rw [applyInsSeq] at hok
    cases hmid : applyIns s op with
    | error e => rw [hmid] at hok; cases hok
    | ok smid =>
      rw [hmid] at hok
      exact ih smid s' hok (applyIns_orient s smid op hmid hs)

/-- C7.  Orientations are unit quaternions at all times: every body of a
scene built by any successful insertion sequence has a unit-length
orientation, and the per-sub-interval orientation update
`q += 0.5·ω·q·Δt` followed by re-normalization maps a unit quaternion (for
any pure angular-velocity quaternion `ω` and any timestep) back to a unit
quaternion. -/
theorem orientation_always_unit :
    (∀ (ops : List InsOp) (s' : Scene),
      applyInsSeq Scene.empty ops = .ok s' →
        ∀ b ∈ s'.bodies, ‖b.orient.toReal‖ = 1) ∧
    (∀ (q ω : Quaternion ℝ) (dt : ℝ), ω.re = 0 → ‖q‖ = 1 →
      ‖orientationUpdate q ω dt‖ = 1) := by
  constructor
  · intro ops s' hok b hb
    rw [applyInsSeq_orient ops Scene.empty s' hok (by intro b hb; cases hb)
      b hb]
    exact norm_Quat_one
  · intro q ω dt hre hq
    have hfact : q + (dt / 2) • (ω * q) = (1 + (dt / 2) • ω) * q := by
      rw [add_mul, one_mul, smul_mul_assoc]
    have hure : (1 + (dt / 2) • ω).re = 1 := by
      simp [Quaternion.add_re, Quaternion.one_re, Quaternion.smul_re, hre]
    have hu : (1 + (dt / 2) • ω) ≠ 0 := by
      intro h0
      rw [h0] at hure
      simp at hure
    have hqne : q ≠ 0 := by
      intro h0
      rw [h0, norm_zero] at hq
      exact one_ne_zero hq.symm
    have hnorm : ‖q + (dt / 2) • (ω * q)‖ = ‖1 + (dt / 2) • ω‖ := by
      rw [hfact, norm_mul, hq, mul_one]
    have hne : ‖q + (dt / 2) • (ω * q)‖ ≠ 0 := by
      rw [hnorm]
      exact norm_ne_zero_iff.mpr hu
    rw [orientationUpdate]
    rw [norm_smul, norm_inv, norm_norm]
    exact inv_mul_cancel₀ hne

/-- Witness for C7: the first body of the C2 witness scene has unit
orientation, and one orientation update at `q = 1`, `ω = i`, `dt = 1/60`
stays unit. -/
theorem orientation_always_unit_witness :
    ‖(bget c2scene.bodies 0).orient.toReal‖ = 1 ∧
      ‖orientationUpdate 1 ⟨0, 1, 0, 0⟩ (1/60)‖ = 1 :=
  ⟨orientation_always_unit.1 c2ops c2scene (by decide)
      (bget c2scene.bodies 0) (by decide),
    orientation_always_unit.2 1 ⟨0, 1, 0, 0⟩ (1/60) rfl norm_one⟩

theorem Body.invMass_zero (b : Body) (h : b.mass = 0) : b.invMass = 0 := by
  rw [Body.invMass, if_pos h]

theorem Body.invInertia_zero (b : Body) (h : b.mass = 0) : b.invInertia = 0 := by
  rw [Body.invInertia, if_pos h]

/-- A static body absorbs any contact delta unchanged. -/
theorem applyContactDelta_static (b : Body) (hm : b.mass = 0) (sgn : ℚ)
    (imp r : Vec3) : applyContactDelta b sgn imp r = b := by
  rw [applyContactDelta, Body.invMass_zero b hm, Body.invInertia_zero b hm,
    mul_zero, Vec3.zero_smul, Vec3.zero_smul, Vec3.add_zero, Vec3.add_zero]

theorem bget_set (bs : List Body) (i k : ℕ) (v : Body) :
    bget (bs.set i v) k = if i = k ∧ i < bs.length then v else bget bs k := by
  by_cases hik : i = k
  · subst hik
    by_cases hlen : i < bs.length
    · simp [bget, List.getElem?_set, hlen]
    · rw [bget, List.getElem?_set, if_pos rfl, if_neg hlen, if_neg
        (by intro h; exact hlen h.2)]
      rw [bget, List.getElem?_eq_none (le_of_not_lt hlen)]
  · simp [bget, List.getElem?_set, hik]

theorem bget_out_of_range (bs : List Body) (k : ℕ) (h : bs.length ≤ k) :
    bget bs k = default := by
  rw [bget, List.getElem?_eq_none h]
  rfl

/-- A static body's slot is untouched by one contact's impulse pair. -/
theorem applyImpulsePair_static (bs : List Body) (c : Contact) (imp : Vec3)
    (k : ℕ) (hm : (bget bs k).mass = 0) :
    bget (applyImpulsePair bs c imp) k = bget bs k := by
  rw [applyImpulsePair]
  have h1 : bget (bs.set c.i
      (applyContactDelta (bget bs c.i) 1 imp (c.point - (bget bs c.i).pos))) k =
      bget bs k := by
    rw [bget_set]
    split
    · rename_i hEq
      rw [hEq.1]
      exact applyContactDelta_static (bget bs k) hm 1 imp _
    · rfl
  cases c.j with
  | none => exact h1
  | some j =>
    rw [bget_set, h1]
    split
    · rename_i hEq
      rw [hEq.1]
      exact applyContactDelta_static (bget bs k) hm (-1) imp _
    · rfl

/-- A static body's slot is untouched by the resolution of one contact. -/
theorem solveContact_static (dt : ℚ) (bs : List Body) (c : Contact) (k : ℕ)
    (hm : (bget bs k).mass = 0) :
    bget (solveContact dt bs c) k = bget bs k := by
  simp only [solveContact]
  split
  · rfl
  · split
    · exact applyImpulsePair_static bs c _ k hm
    · rfl

/-- A static body's slot is untouched by one Gauss–Seidel pass. -/
theorem solvePass_static (dt : ℚ) (cs : List Contact) :
    ∀ (bs : List Body) (k : ℕ), (bget bs k).mass = 0 →
      bget (solvePass dt cs bs) k = bget bs k := by
  induction cs with
  | nil => intro bs k _; rfl
  | cons c rest ih =>
    intro bs k hm
    have h1 := solveContact_static dt bs c k hm
    have h2 := ih (solveContact dt bs c) k (by rw [h1]; exact hm)
    show bget (solvePass dt rest (solveContact dt bs c)) k = bget bs k
    rw [h2, h1]

/-- A static body's slot is untouched by the whole iterative solver. -/
theorem solve_static (iters : ℕ) (dt : ℚ) (cs : List Contact) :
    ∀ (bs : List Body) (k : ℕ), (bget bs k).mass = 0 →
      bget (solve iters dt cs bs) k = bget bs k := by
  induction iters with
  | zero => intro bs k _; rfl
  | succ m ih =>
    intro bs k hm
    have h1 := ih bs k hm
    have h2 := solvePass_static dt cs (solve m dt cs bs) k (by rw [h1]; exact hm)
    show bget (solvePass dt cs (solve m dt cs bs)) k = bget bs k
    rw [h2, h1]

/-- Gravity leaves a static body's slot untouched. -/
theorem applyGravity_static (g : Vec3) (dt : ℚ) (bs : List Body) (k : ℕ)
    (hm : (bget bs k).mass = 0) :
    bget (applyGravity g dt bs) k = bget bs k := by
  cases h : bs[k]? with
  | none => simp [bget, applyGravity, List.getElem?_map, h]
  | some b =>
    have hb : bget bs k = b := by rw [bget, h]; rfl
    rw [hb] at hm ⊢
    simp [bget, applyGravity, List.getElem?_map, h, hm]

theorem bget_range_map (f : ℕ → Body) (n k : ℕ) (h : k < n) :
    bget ((List.range n).map f) k = f k := by
  rw [bget, List.getElem?_map, List.getElem?_range h]
  rfl

/-- Integration moves positions only: velocities and masses at every slot
are untouched. -/
theorem integrateAll_preserves (bs : List Body) (dt : ℚ) (k : ℕ) :
    (bget (integrateAll bs dt) k).linVel = (bget bs k).linVel ∧
    (bget (integrateAll bs dt) k).angVel = (bget bs k).angVel ∧
    (bget (integrateAll bs dt) k).mass = (bget bs k).mass := by
  by_cases hk : k < bs.length
  · rw [integrateAll, bget_range_map _ _ _ hk]
    exact ⟨rfl, rfl, rfl⟩
  · have hlen : (integrateAll bs dt).length ≤ k := by
      rw [integrateAll, List.length_map, List.length_range]
      exact le_of_not_lt hk
    rw [bget_out_of_range _ _ hlen, bget_out_of_range _ _ (le_of_not_lt hk)]
    exact ⟨rfl, rfl, rfl⟩

/-- One sub-interval never mutates a static body's velocities (and keeps it
static). -/
theorem substep_static (s : Scene) (dt : ℚ) (k : ℕ)
    (hm : (bget s.bodies k).mass = 0) :
    (bget (s.substep dt).bodies k).linVel = (bget s.bodies k).linVel ∧
    (bget (s.substep dt).bodies k).angVel = (bget s.bodies k).angVel ∧
    (bget (s.substep dt).bodies k).mass = 0 := by
  set bs1 := applyGravity s.gravity dt s.bodies with hbs1
  set cs1 := narrowPhase bs1 (broadPhase bs1 dt) ++ groundContacts bs1 s.ground
    with hcs1
  set bs2 := solve solverIterations dt cs1 bs1 with hbs2
  set bs3 := integrateAll bs2 dt with hbs3
  set cs2 := narrowPhase bs3 (ccdHitPairs bs2 dt) with hcs2
  have hb : (s.substep dt).bodies = solvePass dt cs2 bs3 := rfl
  have h1 : bget bs1 k = bget s.bodies k := applyGravity_static _ _ _ _ hm
  have hm1 : (bget bs1 k).mass = 0 := by rw [h1]; exact hm
  have h2 : bget bs2 k = bget bs1 k := solve_static _ _ _ _ _ hm1
  have hm2 : (bget bs2 k).mass = 0 := by rw [h2]; exact hm1
  have h3 := integrateAll_preserves bs2 dt k
  have hm3 : (bget bs3 k).mass = 0 := by rw [← hbs3] at h3; rw [h3.2.2]; exact hm2
  rw [← hbs3] at h3
  have h4 : bget (solvePass dt cs2 bs3) k = bget bs3 k :=
    solvePass_static _ _ _ _ hm3
  rw [hb]
  refine ⟨?_, ?_, ?_⟩
  · rw [h4, h3.1, h2, h1]
  · rw [h4, h3.2.1, h2, h1]
  · rw [h4]; exact hm3

/-- C5.  A static/kinematic body (mass 0) never has its velocities mutated:
after any `step(dt, substeps)` its linear and angular velocity equal their
values before the step (the solver scales every impulse by the body's zero
inverse mass and inertia, and gravity skips static bodies). -/
theorem static_velocities_unchanged (s : Scene) (dt : ℚ) (n k : ℕ)
    (hm : (bget s.bodies k).mass = 0) :
    (bget (s.step dt n).bodies k).linVel = (bget s.bodies k).linVel ∧
    (bget (s.step dt n).bodies k).angVel = (bget s.bodies k).angVel := by
  rw [Scene.step]
  have main : ∀ (m : ℕ) (d : ℚ),
      (bget (substepIter d m s).bodies k).linVel = (bget s.bodies k).linVel ∧
      (bget (substepIter d m s).bodies k).angVel = (bget s.bodies k).angVel ∧
      (bget (substepIter d m s).bodies k).mass = 0 := by
    intro m d
    induction m with
    | zero => exact ⟨rfl, rfl, hm⟩
    | succ p ih =>
      have hstep := substep_static (substepIter d p s) d k ih.2.2
      exact ⟨hstep.1.trans ih.1, hstep.2.1.trans ih.2.1, hstep.2.2⟩
  exact ⟨(main n (dt / n)).1, (main n (dt / n)).2.1⟩

/-- The C5 witness scene: a static cube and a kinematic mass-0 sphere with
nonzero velocity, under a dynamic falling cube. -/
def c5scene : Scene :=
  okD (applyInsSeq Scene.empty
    [.cube (fv 0 0 0) (fq (1/2)) (fq 0),
     .sphere (fv 5 0 0) (fv 3 0 0) (fq (1/2)) (fq 0),
     .cube (fv 0 2 0) (fq (1/2)) (fq 1)]) Scene.empty

/-- Witness for C5: after one step, the static cube's velocities are
unchanged. -/
theorem static_velocities_unchanged_witness :
    (bget (c5scene.step (1/60) 2).bodies 0).linVel =
        (bget c5scene.bodies 0).linVel ∧
      (bget (c5scene.step (1/60) 2).bodies 0).angVel =
        (bget c5scene.bodies 0).angVel :=
  static_velocities_unchanged c5scene (1/60) 2 0 (by decide)

/-- The C1 scenario built through the public API: a 1-unit-thick wall of
static cubes of half-extent 1/2 occupying x ∈ [-1/2, 1/2], and a sphere of
radius 1/2 at x = -2 moving toward the wall at 200 units/s. -/
def tunnelBuild : Except Err Scene :=
  applyInsSeq Scene.empty
    [.cube (fv 0 1 0) (fq (1/2)) (fq 0),
     .cube (fv 0 0 0) (fq (1/2)) (fq 0),
     .cube (fv 0 (-1) 0) (fq (1/2)) (fq 0),
     .sphere (fv (-2) 0 0) (fv 200 0 0) (fq (1/2)) (fq 1)]

/-- The successfully built C1 scene. -/
def tunnelScene : Scene := okD tunnelBuild Scene.empty

/-- The C1 simulator after the single `step(1/60, substeps = 1)` call. -/
def tunnelAfter : Simulator :=
  (Simulator.new tunnelScene 1280 720).step (1/60) 1

/-- C1.  A sphere of radius 1/2 moving at 200 units/s toward a 1-unit-thick
wall of static cubes of half-extent 1/2 is stopped by CCD within a single
`step(1/60, substeps = 1)`: the build succeeds, the un-clamped end-of-step
position `x + vₓ·dt` would lie beyond the wall (so the sphere would tunnel
in one sub-interval without CCD), yet the sphere's final position stays
strictly on the near side of the wall face at x = -1/2. -/
theorem ccd_stops_tunneling :
    tunnelBuild = .ok tunnelScene ∧
    (bget tunnelScene.bodies 3).pos.x +
        (bget tunnelScene.bodies 3).linVel.x * (1/60) > 1/2 ∧
    (bget tunnelAfter.scene.bodies 3).pos.x < -(1/2) :=
  ⟨by decide, by decide, by decide⟩

end PhysicsBox
